import Mathlib

/-!
Shallow embedding of the feature-graph core of cargo-guppy:
`graph/feature/build.rs`, `graph/feature/graph_impl.rs`,
`graph/resolve_core.rs` and `graph/resolve.rs`.

Strings are embedded as `List Char`; machine `usize` indices as `Nat`;
`FixedBitSet` as `List Bool`; panics as `Except`/`Option` error values.
-/

namespace Guppy

/-- Feature names and feature-dep tokens are plain strings. -/
abbrev FeatName := List Char

/-- Modelled from the spec (§3, glossary): `PlatformStatusImpl` lives outside
the provided sources. A platform predicate is one of never, always, or a
set-of-platforms expression; it supports `is_never()` and in-place `extend`
(union), where extending by `never` is a no-op and `always` absorbs. -/
inductive PlatformStatus where
  | never : PlatformStatus
  | always : PlatformStatus
  | platforms : List Nat → PlatformStatus
deriving DecidableEq, Repr

namespace PlatformStatus

/-- Modelled from the spec: `is_never()` holds exactly for the `never` predicate. -/
def is_never : PlatformStatus → Bool
  | .never => true
  | .always => false
  | .platforms _ => false

/-- Modelled from the spec: in-place `extend(other)` unions the conditions.
`never` is the identity of the union and `always` absorbs. -/
def extend : PlatformStatus → PlatformStatus → PlatformStatus
  | p, .never => p
  | _, .always => .always
  | .never, q => q
  | .always, _ => .always
  | .platforms a, .platforms b => .platforms (a ++ b)

end PlatformStatus

/-- The default (`Default::default()`) platform status is `never`. -/
def platformStatusDefault : PlatformStatus := .never

/-- The three documented dependency kinds (`cargo_metadata::DependencyKind`). -/
inductive DependencyKind where
  | normal : DependencyKind
  | build : DependencyKind
  | development : DependencyKind
deriving DecidableEq, Repr

/-- `DepRequiredOrOptional`: one sub-request of a `DependencyReq`
(build.rs uses `build_if`, `default_features_if` and `feature_targets`). -/
structure DepRequiredOrOptional where
  build_if : PlatformStatus
  default_features_if : PlatformStatus
  feature_targets : List (FeatName × PlatformStatus)
deriving DecidableEq, Repr

/-- `DependencyReq`: the required and optional sub-requests of one kind. -/
structure DependencyReq where
  required : DepRequiredOrOptional
  optional : DepRequiredOrOptional
deriving DecidableEq, Repr

/-- Package metadata as consumed by the feature-graph builder: the package
index, the package id, the named features (name and raw feature-dep tokens, in
index order) and the optional dependency names.  Named features occupy indices
`0 .. named_features.length`; optional deps follow in the same index space. -/
structure PackageMetadata where
  package_ix : Nat
  pid : Nat
  named_features : List (FeatName × List FeatName)
  optional_deps : List FeatName
deriving DecidableEq, Repr

namespace PackageMetadata

/-- `get_feature_idx(name)`: index of `name` in the feature space
(named features first, then optional deps). -/
def get_feature_idx (p : PackageMetadata) (name : FeatName) : Option Nat :=
  (p.named_features.map Prod.fst ++ p.optional_deps).findIdx? (fun n => n = name)

/-- `named_features_full()`: (feature index, name, feature-dep tokens). -/
def named_features_full (p : PackageMetadata) : List (Nat × FeatName × List FeatName) :=
  p.named_features.enum.map (fun x => (x.1, x.2.1, x.2.2))

/-- `optional_deps_full()`: (feature index, dep name); optional deps are
indexed after the named features. -/
def optional_deps_full (p : PackageMetadata) : List (Nat × FeatName) :=
  p.optional_deps.enum.map (fun x => (p.named_features.length + x.1, x.2))

end PackageMetadata

/-- A package link (edge of the package graph), carrying the metadata of both
endpoints, the dependency name, and the three per-kind `DependencyReq`s. -/
structure PackageLink where
  fromMeta : PackageMetadata
  toMeta : PackageMetadata
  dep_name : FeatName
  normal : DependencyReq
  build : DependencyReq
  dev : DependencyReq
deriving DecidableEq, Repr

/-- The package graph as consumed by the builder: packages in package-index
order, plus the package links. -/
structure PackageGraph where
  packages : List PackageMetadata
  links : List PackageLink
deriving DecidableEq, Repr

namespace PackageGraph

/-- `PackageGraph::metadata(package_id)`. -/
def metadata (g : PackageGraph) (pid : Nat) : Option PackageMetadata :=
  g.packages.find? (fun p => p.pid = pid)

/-- `PackageMetadata::direct_links()`: links whose `from` is this package. -/
def direct_links (g : PackageGraph) (m : PackageMetadata) : List PackageLink :=
  g.links.filter (fun l => l.fromMeta.package_ix = m.package_ix)

/-- The `dep_name → link.to()` map built at the start of
`add_named_feature_edges` (first matching link wins; cargo keeps dependency
names unique per package). -/
def dep_name_to_metadata (g : PackageGraph) (m : PackageMetadata) (dn : FeatName) :
    Option PackageMetadata :=
  ((g.direct_links m).find? (fun l => l.dep_name = dn)).map (fun l => l.toMeta)

end PackageGraph

/-- `FeatureNode`: a (package index, optional feature index) pair;
`feature_idx = none` is the base pseudo-feature. -/
structure FeatureNode where
  package_ix : Nat
  feature_idx : Option Nat
deriving DecidableEq, Repr

namespace FeatureNode

/-- `FeatureNode::new`. -/
def new (package_ix : Nat) (feature_idx : Nat) : FeatureNode :=
  ⟨package_ix, some feature_idx⟩

/-- `FeatureNode::base`. -/
def base (package_ix : Nat) : FeatureNode :=
  ⟨package_ix, none⟩

/-- `FeatureNode::new_opt`. -/
def new_opt (package_ix : Nat) (feature_idx : Option Nat) : FeatureNode :=
  ⟨package_ix, feature_idx⟩

end FeatureNode

/-- `FeatureType`. -/
inductive FeatureType where
  | namedFeature : FeatureType
  | optionalDep : FeatureType
  | basePackage : FeatureType
deriving DecidableEq, Repr

/-- `FeatureEdge`. -/
inductive FeatureEdge where
  | featureToBase : FeatureEdge
  | dependency : PlatformStatus → PlatformStatus → PlatformStatus → FeatureEdge
  | featureDependency : FeatureEdge
deriving DecidableEq, Repr

/-- `FeatureBuildStage` of a warning. -/
inductive FeatureBuildStage where
  | addNamedFeatureEdges : Nat → FeatName → FeatureBuildStage
  | addDependencyEdges : Nat → FeatName → FeatureBuildStage
deriving DecidableEq, Repr

/-- `FeatureGraphWarning::MissingFeature`. -/
inductive FeatureGraphWarning where
  | missingFeature : FeatureBuildStage → Nat → FeatName → FeatureGraphWarning
deriving DecidableEq, Repr

/-- `split_feature_dep` helper: locate the last separator.  Returns
`some (before, after)` when `sep` occurs in the list, splitting at its last
occurrence, and `none` otherwise.  This is the semantics of
`rsplitn(2, '/')` used by the source. -/
def splitLast (sep : Char) : List Char → Option (List Char × List Char)
  | [] => none
  | c :: rest =>
    match splitLast sep rest with
    | some x => some (c :: x.1, x.2)
    | none => if c = sep then some ([], rest) else none

/-- `FeatureGraphBuildState::split_feature_dep`: split a feature dep token on
the last `/` (at most one split).  "foo" → (none, "foo");
"dep/foo" → (some "dep", "foo"). -/
def split_feature_dep (feature_dep : FeatName) : Option FeatName × FeatName :=
  match splitLast '/' feature_dep with
  | some x => (some x.1, x.2)
  | none => (none, feature_dep)

/-- `DependencyBuildState { normal, build, dev }` (build.rs). -/
structure DependencyBuildState where
  normal : PlatformStatus
  build : PlatformStatus
  dev : PlatformStatus
deriving DecidableEq, Repr

/-- `DependencyBuildState::default()`: all three predicates are `never`. -/
def dbsDefault : DependencyBuildState := ⟨.never, .never, .never⟩

namespace DependencyBuildState

/-- `DependencyBuildState::extend`: extend the field matching the kind.  The
source's `_ => panic!(..)` arm is unrepresentable here because the embedded
`DependencyKind` has exactly the three documented constructors. -/
def extend (s : DependencyBuildState) (dep_kind : DependencyKind)
    (status : PlatformStatus) : DependencyBuildState :=
  match dep_kind with
  | .normal => ⟨s.normal.extend status, s.build, s.dev⟩
  | .build => ⟨s.normal, s.build.extend status, s.dev⟩
  | .development => ⟨s.normal, s.build, s.dev.extend status⟩

/-- `DependencyBuildState::is_empty`. -/
def is_empty (s : DependencyBuildState) : Bool :=
  s.normal.is_never && s.build.is_never && s.dev.is_never

/-- `DependencyBuildState::finish`. -/
def finish (s : DependencyBuildState) : FeatureEdge :=
  .dependency s.normal s.build s.dev

end DependencyBuildState

/-- `HashMap::entry(k).or_default()` followed by a mutation `f`, on the
association-list embedding of the `features` map. -/
def updateEntry (k : Option Nat) (f : DependencyBuildState → DependencyBuildState) :
    List (Option Nat × DependencyBuildState) → List (Option Nat × DependencyBuildState)
  | [] => [(k, f dbsDefault)]
  | e :: rest => if e.1 = k then (e.1, f e.2) :: rest else e :: updateEntry k f rest

/-- `FeatureReq` (build.rs): accumulates per-destination-feature build states
for one package link.  `from_pid` and `link_dep_name` are the parts of the
stored `link` used for warnings. -/
structure FeatureReq where
  from_pid : Nat
  link_dep_name : FeatName
  toPkg : PackageMetadata
  to_default_idx : Option Nat
  features : List (Option Nat × DependencyBuildState)
deriving DecidableEq, Repr

namespace FeatureReq

/-- `FeatureReq::new(link)`. -/
def new (link : PackageLink) : FeatureReq :=
  ⟨link.fromMeta.pid, link.dep_name, link.toMeta,
    link.toMeta.get_feature_idx "default".toList, []⟩

/-- `FeatureReq::is_empty` — the features map only holds non-empty states. -/
def is_empty (req : FeatureReq) : Bool :=
  req.features.isEmpty

/-- `FeatureReq::extend`: fold a per-kind platform predicate into the entry
under `feature_idx`, but only when the predicate is not `never`. -/
def extend (req : FeatureReq) (feature_idx : Option Nat) (dep_kind : DependencyKind)
    (status : PlatformStatus) : FeatureReq :=
  if status.is_never then req
  else { req with features := updateEntry feature_idx (fun s => s.extend dep_kind status) req.features }

/-- `FeatureReq::add_features`: fold one kind's sub-request; missing feature
targets produce an `AddDependencyEdges` warning and are dropped. -/
def add_features (req : FeatureReq) (dep_kind : DependencyKind)
    (r : DepRequiredOrOptional) (warnings : List FeatureGraphWarning) :
    FeatureReq × List FeatureGraphWarning :=
  -- Base feature.
  let req1 := req.extend none dep_kind r.build_if
  -- Default feature (or base if it isn't present).
  let req2 := req1.extend req1.to_default_idx dep_kind r.default_features_if
  r.feature_targets.foldl
    (fun acc ft =>
      match acc.1.toPkg.get_feature_idx ft.1 with
      | some feature_idx => (acc.1.extend (some feature_idx) dep_kind ft.2, acc.2)
      | none =>
        (acc.1, acc.2 ++ [FeatureGraphWarning.missingFeature
          (.addDependencyEdges acc.1.from_pid acc.1.link_dep_name) acc.1.toPkg.pid ft.1]))
    (req2, warnings)

/-- `FeatureReq::finish`: emit the per-destination-feature edges. -/
def finish (req : FeatureReq) : List (FeatureNode × FeatureEdge) :=
  req.features.map (fun e => (FeatureNode.new_opt req.toPkg.package_ix e.1, e.2.finish))

end FeatureReq

/-- `FeatureMetadataImpl`. -/
structure FeatureMetadataImpl where
  feature_ix : Nat
  feature_type : FeatureType
deriving DecidableEq, Repr

/-- The petgraph feature graph: nodes in insertion order plus an edge list of
(source ix, target ix, payload). -/
structure FGraph where
  nodes : List FeatureNode
  edges : List (Nat × Nat × FeatureEdge)
deriving DecidableEq, Repr

/-- `Graph::update_edge`: replace the payload if an edge between the endpoints
exists, otherwise append a new edge. -/
def update_edge (edges : List (Nat × Nat × FeatureEdge)) (a b : Nat) (e : FeatureEdge) :
    List (Nat × Nat × FeatureEdge) :=
  if edges.any (fun x => x.1 = a && x.2.1 = b) then
    edges.map (fun x => if x.1 = a && x.2.1 = b then (a, b, e) else x)
  else
    edges ++ [(a, b, e)]

/-- `Graph::contains_edge`. -/
def contains_edge (edges : List (Nat × Nat × FeatureEdge)) (a b : Nat) : Bool :=
  edges.any (fun x => x.1 = a && x.2.1 = b)

/-- `FeatureGraphBuildState` (minus the borrowed package graph, which is
threaded explicitly). -/
structure BuildState where
  graph : FGraph
  base_ixs : List Nat
  map : List (FeatureNode × FeatureMetadataImpl)
  warnings : List FeatureGraphWarning
deriving DecidableEq, Repr

/-- The builder panics modelled as error values. -/
inductive BuildPanic where
  | missingFrom : FeatureNode → BuildPanic
  | missingTo : FeatureNode → BuildPanic
  | missingOptionalDep : Nat → FeatName → BuildPanic
deriving DecidableEq, Repr

/-- `HashMap::insert` on the association-list node map. -/
def mapInsert (node : FeatureNode) (md : FeatureMetadataImpl) :
    List (FeatureNode × FeatureMetadataImpl) → List (FeatureNode × FeatureMetadataImpl)
  | [] => [(node, md)]
  | e :: rest => if e.1 = node then (node, md) :: rest else e :: mapInsert node md rest

namespace BuildState

/-- `FeatureGraphBuildState::new`. -/
def empty : BuildState := ⟨⟨[], []⟩, [], [], []⟩

/-- `FeatureGraphBuildState::lookup_node`. -/
def lookup_node (st : BuildState) (node : FeatureNode) : Option Nat :=
  ((st.map.find? (fun e => e.1 = node)).map (fun e => e.2.feature_ix))

/-- `FeatureGraphBuildState::add_node`: push the node and record its metadata. -/
def add_node (st : BuildState) (feature_id : FeatureNode) (feature_type : FeatureType) :
    BuildState × Nat :=
  let feature_ix := st.graph.nodes.length
  ({ st with
      graph := ⟨st.graph.nodes ++ [feature_id], st.graph.edges⟩,
      map := mapInsert feature_id ⟨feature_ix, feature_type⟩ st.map },
    feature_ix)

/-- `FeatureGraphBuildState::add_nodes` (Phase A, one package): add the base
node, a node plus `FeatureToBase` edge for each named feature, and a node plus
`FeatureToBase` edge for each optional dep. -/
def add_nodes (st : BuildState) (package : PackageMetadata) : BuildState :=
  let x := st.add_node (FeatureNode.base package.package_ix) .basePackage
  let st1 := { x.1 with base_ixs := x.1.base_ixs ++ [x.2] }
  let base_ix := x.2
  let st2 := package.named_features_full.foldl
    (fun s nf =>
      let y := s.add_node (FeatureNode.new package.package_ix nf.1) .namedFeature
      { y.1 with graph := ⟨y.1.graph.nodes, update_edge y.1.graph.edges y.2 base_ix .featureToBase⟩ })
    st1
  package.optional_deps_full.foldl
    (fun s od =>
      let y := s.add_node (FeatureNode.new package.package_ix od.1) .optionalDep
      { y.1 with graph := ⟨y.1.graph.nodes, update_edge y.1.graph.edges y.2 base_ix .featureToBase⟩ })
    st2

/-- `FeatureGraphBuildState::end_nodes`. -/
def end_nodes (st : BuildState) : BuildState :=
  { st with base_ixs := st.base_ixs ++ [st.graph.nodes.length] }

/-- `FeatureGraphBuildState::add_edges`: look up both endpoints (panicking on a
missing one) and `update_edge` each pair. -/
def add_edges (st : BuildState) (from_node : FeatureNode)
    (to_nodes_edges : List (FeatureNode × FeatureEdge)) : Except BuildPanic BuildState :=
  match st.lookup_node from_node with
  | none => .error (.missingFrom from_node)
  | some from_ix =>
    to_nodes_edges.foldl
      (fun acc te =>
        acc.bind fun s =>
          match s.lookup_node te.1 with
          | none => .error (.missingTo te.1)
          | some to_ix =>
            .ok { s with graph := ⟨s.graph.nodes, update_edge s.graph.edges from_ix to_ix te.2⟩ })
      (.ok st)

end BuildState

/-- The body of the `filter_map` in `add_named_feature_edges`: resolve one
feature-dep token to an optional target node, threading the warnings vector.
A `dep/feat` token whose `dep` is a direct dependency lacking `feat` warns and
drops; a token whose `dep` is not a direct dependency drops silently; a
bare `feat` token missing from the package itself warns and drops. -/
def resolveFeatureToken (g : PackageGraph) (metadata : PackageMetadata)
    (named_feature : FeatName) (warnings : List FeatureGraphWarning)
    (feature_dep : FeatName) : Option FeatureNode × List FeatureGraphWarning :=
  let x := split_feature_dep feature_dep
  match x.1 with
  | some dep_name =>
    match g.dep_name_to_metadata metadata dep_name with
    | some to_metadata =>
      match to_metadata.get_feature_idx x.2 with
      | some to_feature_idx =>
        (some (FeatureNode.new to_metadata.package_ix to_feature_idx), warnings)
      | none =>
        (none, warnings ++ [FeatureGraphWarning.missingFeature
          (.addNamedFeatureEdges metadata.pid named_feature) to_metadata.pid x.2])
    | none =>
      -- Unresolved dependency name: silently dropped.
      (none, warnings)
  | none =>
    match metadata.get_feature_idx x.2 with
    | some to_feature_idx =>
      (some (FeatureNode.new metadata.package_ix to_feature_idx), warnings)
    | none =>
      (none, warnings ++ [FeatureGraphWarning.missingFeature
        (.addNamedFeatureEdges metadata.pid named_feature) metadata.pid x.2])

namespace BuildState

/-- `FeatureGraphBuildState::add_named_feature_edges` (Phase B, one package):
for each named feature, resolve its tokens and add one `FeatureDependency`
edge per resolved target. -/
def add_named_feature_edges (g : PackageGraph) (st : BuildState)
    (metadata : PackageMetadata) : Except BuildPanic BuildState :=
  metadata.named_features_full.foldl
    (fun acc nf =>
      acc.bind fun s =>
        let from_node := FeatureNode.new metadata.package_ix nf.1
        let r := nf.2.2.foldl
          (fun (tw : List FeatureNode × List FeatureGraphWarning) tok =>
            match resolveFeatureToken g metadata nf.2.1 tw.2 tok with
            | (some tn, w2) => (tw.1 ++ [tn], w2)
            | (none, w2) => (tw.1, w2))
          ([], s.warnings)
        add_edges { s with warnings := r.2 } from_node
          (r.1.map (fun tn => (tn, FeatureEdge.featureDependency))))
    (.ok st)

/-- The request-folding loop of `add_dependency_edges` (Phase C): fold the
three kinds into the required and optional `FeatureReq`s, threading warnings
starting from the builder's warning vector. -/
def depReqs (st : BuildState) (link : PackageLink) :
    FeatureReq × FeatureReq × List FeatureGraphWarning :=
  let kinds : List (DependencyKind × DependencyReq) :=
    [(.normal, link.normal), (.build, link.build), (.development, link.dev)]
  kinds.foldl
    (fun acc kd =>
      let r1 := acc.1.add_features kd.1 kd.2.required acc.2.2
      let r2 := acc.2.1.add_features kd.1 kd.2.optional r1.2
      (r1.1, r2.1, r2.2))
    (FeatureReq.new link, FeatureReq.new link, st.warnings)

/-- `FeatureGraphBuildState::add_dependency_edges` (Phase C, one link): emit
the required edges from the `from` base, then, when the optional request is
non-empty, emit the optional edges from the `(from, dep_name)` feature node —
panicking when `dep_name` is not a feature of `from`. -/
def add_dependency_edges (st : BuildState) (link : PackageLink) :
    Except BuildPanic BuildState :=
  let r := st.depReqs link
  let st1 := { st with warnings := r.2.2 }
  match st1.add_edges (FeatureNode.base link.fromMeta.package_ix) r.1.finish with
  | .error e => .error e
  | .ok st2 =>
    if r.2.1.is_empty then .ok st2
    else
      match link.fromMeta.get_feature_idx link.dep_name with
      | none => .error (.missingOptionalDep link.fromMeta.pid link.dep_name)
      | some idx =>
        st2.add_edges (FeatureNode.new link.fromMeta.package_ix idx) r.2.1.finish

end BuildState

/-- `FeatureGraphImpl::new`: Phase A over packages in index order, `end_nodes`,
Phase B over packages and Phase C over links.  The source drives Phases B and C
through `resolve_all()` in reverse topological order; the enumeration order is
an implementation choice (spec §4.3) and is embedded as reverse list order. -/
def buildFeatureGraph (g : PackageGraph) : Except BuildPanic BuildState :=
  let st1 := g.packages.foldl (fun st p => st.add_nodes p) BuildState.empty
  let st2 := st1.end_nodes
  let st3 := g.packages.reverse.foldl
    (fun acc p => acc.bind fun st => st.add_named_feature_edges g p) (.ok st2)
  g.links.reverse.foldl
    (fun acc l => acc.bind fun st => st.add_dependency_edges l) st3

/-- `Error::UnknownFeatureId(package_id, feature_name)`. -/
inductive Error where
  | unknownFeatureId : Nat → Option FeatName → Error
deriving DecidableEq, Repr

/-- `FeatureNode::from_id`: convert an external `FeatureId`
(package id, optional feature name) into a node; `none` for an unknown
package id or feature name. -/
def featureNodeFromId (g : PackageGraph) (pid : Nat) (feature : Option FeatName) :
    Option FeatureNode :=
  match g.metadata pid with
  | none => none
  | some m =>
    match feature with
    | some feature_name => (m.get_feature_idx feature_name).map (FeatureNode.new m.package_ix)
    | none => some (FeatureNode.base m.package_ix)

/-- `FeatureGraph::feature_ix_err`: node-map lookup of an external id,
producing `UnknownFeatureId` when the id does not resolve. -/
def feature_ix_err (g : PackageGraph) (st : BuildState) (pid : Nat)
    (feature : Option FeatName) : Except Error Nat :=
  match featureNodeFromId g pid feature with
  | none => .error (.unknownFeatureId pid feature)
  | some node =>
    match st.lookup_node node with
    | none => .error (.unknownFeatureId pid feature)
    | some ix => .ok ix

/-- One step of reachability along the feature-graph edges: append every
target whose source is already visited. -/
def stepReach (edges : List (Nat × Nat × FeatureEdge)) (visited : List Nat) : List Nat :=
  edges.foldl
    (fun acc e => if acc.contains e.1 && !acc.contains e.2.1 then acc ++ [e.2.1] else acc)
    visited

/-- Iterated reachability steps. -/
def iterReach (edges : List (Nat × Nat × FeatureEdge)) : Nat → List Nat → List Nat
  | 0, v => v
  | n + 1, v => iterReach edges n (stepReach edges v)

/-- `petgraph::algo::has_path_connecting`: DFS from `a` (which visits `a`
itself first), checking whether `b` is reached.  Embedded as a fixpoint of the
one-step reachability operator, iterated node-count many times. -/
def has_path_connecting (st : BuildState) (a b : Nat) : Bool :=
  (iterReach st.graph.edges st.graph.nodes.length [a]).contains b

/-- `FeatureGraph::depends_on(a, b)`: transitive (and reflexive) reachability,
`UnknownFeatureId` when either argument does not resolve. -/
def depends_on (g : PackageGraph) (st : BuildState) (pa : Nat) (fa : Option FeatName)
    (pb : Nat) (fb : Option FeatName) : Except Error Bool :=
  match feature_ix_err g st pa fa with
  | .error e => .error e
  | .ok a_ix =>
    match feature_ix_err g st pb fb with
    | .error e => .error e
    | .ok b_ix => .ok (has_path_connecting st a_ix b_ix)

/-- `FeatureGraph::directly_depends_on(a, b)`: a single edge
(`Graph::contains_edge`), `UnknownFeatureId` when either argument does not
resolve. -/
def directly_depends_on (g : PackageGraph) (st : BuildState) (pa : Nat)
    (fa : Option FeatName) (pb : Nat) (fb : Option FeatName) : Except Error Bool :=
  match feature_ix_err g st pa fa with
  | .error e => .error e
  | .ok a_ix =>
    match feature_ix_err g st pb fb with
    | .error e => .error e
    | .ok b_ix => .ok (contains_edge st.graph.edges a_ix b_ix)

/-- Run the feature-graph build and evaluate a query on the result;
`none` when the build panics. -/
def builtThen {α : Type} (g : PackageGraph) (f : BuildState → α) : Option α :=
  match buildFeatureGraph g with
  | .ok st => some (f st)
  | .error _ => none

/-!  `resolve_core.rs` / `resolve.rs`: bitsets, `ResolveCore` and `PackageSet`. -/

/-- Bit `i` of a `FixedBitSet` embedded as `List Bool` (false beyond the end). -/
def testBit : List Bool → Nat → Bool
  | [], _ => false
  | x :: _, 0 => x
  | _ :: l, i + 1 => testBit l i

/-- Population count of a bitset: `count_ones(..)`. -/
def popcount (l : List Bool) : Nat :=
  l.count true

/-- `FixedBitSet::union_with`: pointwise or, growing to the longer operand. -/
def fbUnion : List Bool → List Bool → List Bool
  | [], b => b
  | a, [] => a
  | x :: a, y :: b => (x || y) :: fbUnion a b

/-- `FixedBitSet::intersect_with`: pointwise and; the receiver keeps its
length and bits beyond the other operand are cleared. -/
def fbIntersect : List Bool → List Bool → List Bool
  | [], _ => []
  | a, [] => a.map (fun _ => false)
  | x :: a, y :: b => (x && y) :: fbIntersect a b

/-- `FixedBitSet::difference(..).collect()`: the ones of the receiver that are
not in the other operand (embedded keeping the receiver's length; bitwise
membership agrees with the collected set of indices). -/
def fbDifference : List Bool → List Bool → List Bool
  | [], _ => []
  | a, [] => a
  | x :: a, y :: b => (x && !y) :: fbDifference a b

/-- `FixedBitSet::symmetric_difference_with`: pointwise xor, growing to the
longer operand. -/
def fbSymdiff : List Bool → List Bool → List Bool
  | [], b => b
  | a, [] => a
  | x :: a, y :: b => (xor x y) :: fbSymdiff a b

/-- `ResolveCore`: an included bitset plus a cached length. -/
structure ResolveCore where
  included : List Bool
  len : Nat
deriving DecidableEq, Repr

namespace ResolveCore

/-- `ResolveCore::from_included`: adopt an external bitset; the length is its
popcount. -/
def from_included (included : List Bool) : ResolveCore :=
  ⟨included, popcount included⟩

/-- `ResolveCore::invalidate_caches`: recompute `len` as the popcount. -/
def invalidate_caches (c : ResolveCore) : ResolveCore :=
  ⟨c.included, popcount c.included⟩

/-- `ResolveCore::union_with` (in-place mutation embedded as a function of the
receiver). -/
def union_with (c other : ResolveCore) : ResolveCore :=
  invalidate_caches ⟨fbUnion c.included other.included, c.len⟩

/-- `ResolveCore::intersect_with`. -/
def intersect_with (c other : ResolveCore) : ResolveCore :=
  invalidate_caches ⟨fbIntersect c.included other.included, c.len⟩

/-- `ResolveCore::difference`: returns a new instance via `from_included`. -/
def difference (c other : ResolveCore) : ResolveCore :=
  from_included (fbDifference c.included other.included)

/-- `ResolveCore::symmetric_difference_with`. -/
def symmetric_difference_with (c other : ResolveCore) : ResolveCore :=
  invalidate_caches ⟨fbSymdiff c.included other.included, c.len⟩

end ResolveCore

/-- `PackageSet`: a `ResolveCore` plus the identity of the `PackageGraph`
instance it was built over (`&'g PackageGraph` pointer identity embedded as a
numeric token compared by `std::ptr::eq`). -/
structure PackageSet where
  graph : Nat
  core : ResolveCore
deriving DecidableEq, Repr

namespace PackageSet

/-- `PackageSet::union`, in state-passing form: the call borrows both operands
immutably, mutates only a clone, and returns (self after, other after,
result).  The `assert!(ptr::eq(..))` panic on mismatched graph instances is
the `none` result. -/
def unionCall (s other : PackageSet) : PackageSet × PackageSet × Option PackageSet :=
  (s, other,
    if s.graph = other.graph then some ⟨s.graph, s.core.union_with other.core⟩ else none)

/-- `PackageSet::intersection`, in state-passing form. -/
def intersectionCall (s other : PackageSet) : PackageSet × PackageSet × Option PackageSet :=
  (s, other,
    if s.graph = other.graph then some ⟨s.graph, s.core.intersect_with other.core⟩ else none)

/-- `PackageSet::difference`, in state-passing form. -/
def differenceCall (s other : PackageSet) : PackageSet × PackageSet × Option PackageSet :=
  (s, other,
    if s.graph = other.graph then some ⟨s.graph, s.core.difference other.core⟩ else none)

/-- `PackageSet::symmetric_difference`, in state-passing form. -/
def symmetricDifferenceCall (s other : PackageSet) :
    PackageSet × PackageSet × Option PackageSet :=
  (s, other,
    if s.graph = other.graph then
      some ⟨s.graph, s.core.symmetric_difference_with other.core⟩
    else none)

/-- The value returned by `PackageSet::union` (panic as `none`). -/
def union (s other : PackageSet) : Option PackageSet :=
  (unionCall s other).2.2

/-- The value returned by `PackageSet::intersection` (panic as `none`). -/
def intersection (s other : PackageSet) : Option PackageSet :=
  (intersectionCall s other).2.2

/-- The value returned by `PackageSet::difference` (panic as `none`). -/
def difference (s other : PackageSet) : Option PackageSet :=
  (differenceCall s other).2.2

/-- The value returned by `PackageSet::symmetric_difference` (panic as `none`). -/
def symmetric_difference (s other : PackageSet) : Option PackageSet :=
  (symmetricDifferenceCall s other).2.2

end PackageSet

/-!  `ResolveCore::with_edge_filter` over an abstract edge-list graph. -/

/-- A directed graph with `n` nodes and payload-free edges
`(source, target, edge index)`, standing for the petgraph graph that
`ResolveCore` queries run over. -/
structure EdgeListGraph where
  n : Nat
  edges : List (Nat × Nat × Nat)
deriving DecidableEq, Repr

/-- `petgraph::visit::Reversed`: every edge ref has source and target
swapped; edge indices are unchanged. -/
def reversed (g : EdgeListGraph) : EdgeListGraph :=
  ⟨g.n, g.edges.map (fun e => (e.2.1, e.1, e.2.2))⟩

/-- `QueryParams`: initial node indices plus a direction. -/
inductive QueryParams where
  | forward : List Nat → QueryParams
  | reverse : List Nat → QueryParams
deriving DecidableEq, Repr

/-- One step of filtered reachability: follow every edge whose predicate
accepts it from a visited source to an unvisited target. -/
def rmStep (edges : List (Nat × Nat × Nat)) (f : Nat × Nat × Nat → Bool)
    (visited : List Nat) : List Nat :=
  edges.foldl
    (fun acc e =>
      if f e && acc.contains e.1 && !acc.contains e.2.1 then acc ++ [e.2.1] else acc)
    visited

/-- Iterated filtered reachability steps. -/
def rmIter (edges : List (Nat × Nat × Nat)) (f : Nat × Nat × Nat → Bool) :
    Nat → List Nat → List Nat
  | 0, v => v
  | n + 1, v => rmIter edges f n (rmStep edges f v)

/-- Modelled from the spec (§4.1): `reachable_map_filtered` of `query_core.rs`
is outside the provided sources.  It produces the bitset of every node
reachable from the initials following edges the filter accepts, plus the
population count. -/
def reachable_map_filtered (g : EdgeListGraph) (f : Nat × Nat × Nat → Bool)
    (initials : List Nat) : List Bool × Nat :=
  let vis := rmIter g.edges f g.n initials
  let bits := (List.range g.n).map (fun i => vis.contains i)
  (bits, popcount bits)

/-- `ResolveCore::with_edge_filter`: under `Forward` the filter is called on
`(source, target, edge ix)` of each edge ref; under `Reverse` the traversal
runs over the reversed graph and the filter is called on
`(target, source, edge ix)` of the reversed edge ref, i.e. the un-reversed
pair. -/
def with_edge_filter (g : EdgeListGraph) (params : QueryParams)
    (edge_filter : Nat → Nat → Nat → Bool) : List Bool × Nat :=
  match params with
  | .forward initials =>
    reachable_map_filtered g (fun e => edge_filter e.1 e.2.1 e.2.2) initials
  | .reverse initials =>
    reachable_map_filtered (reversed g) (fun e => edge_filter e.2.1 e.1 e.2.2) initials

/-- Specification-side view for C5: keep exactly the edges the filter accepts
in the graph's original orientation. -/
def origGated (g : EdgeListGraph) (edge_filter : Nat → Nat → Nat → Bool) : EdgeListGraph :=
  ⟨g.n, g.edges.filter (fun e => edge_filter e.1 e.2.1 e.2.2)⟩

/-!  Concrete inputs. -/

/-- A package with no named features and no optional deps. -/
def pkgA : PackageMetadata := ⟨0, 100, [], []⟩

/-- An all-`never` sub-request. -/
def allNeverSub : DepRequiredOrOptional := ⟨.never, .never, []⟩

/-- A `DependencyReq` with both sub-requests all-`never`. -/
def allNeverReq : DependencyReq := ⟨allNeverSub, allNeverSub⟩

/-- A dev-dependency of `pkgA` on itself (dev-dependencies on the same package
are accepted by cargo): the dev kind's required sub-request is live on every
platform. -/
def devSelfLink : PackageLink :=
  ⟨pkgA, pkgA, "itself".toList, allNeverReq, allNeverReq, ⟨⟨.always, .always, []⟩, allNeverSub⟩⟩

/-- The one-package package graph with the self dev-dependency link. -/
def selfDevGraph : PackageGraph := ⟨[pkgA], [devSelfLink]⟩

/-- A package whose named feature `foo` lists its own name among its
feature-dep tokens (`foo = ["foo"]`). -/
def pkgB : PackageMetadata := ⟨0, 200, [("foo".toList, ["foo".toList])], []⟩

/-- The one-package package graph around `pkgB`, with no links. -/
def selfFeatGraph : PackageGraph := ⟨[pkgB], []⟩

/-- A package with one optional dependency `od` and no named features. -/
def pkgC : PackageMetadata := ⟨0, 300, [], ["od".toList]⟩

/-- A package with no features, the destination of `optLink`. -/
def pkgD : PackageMetadata := ⟨1, 301, [], []⟩

/-- A link from `pkgC` to `pkgD` under dep name `od` whose normal kind is
optional on every platform. -/
def optLink : PackageLink :=
  ⟨pkgC, pkgD, "od".toList, ⟨allNeverSub, ⟨.always, .always, []⟩⟩, allNeverReq, allNeverReq⟩

/-- Phase A over `pkgC` and `pkgD`. -/
def stCD : BuildState := (BuildState.empty.add_nodes pkgC).add_nodes pkgD

end Guppy

namespace Guppy

/-!  Helper lemmas. -/

theorem splitLast_eq_none_of_not_mem (sep : Char) :
    ∀ l : List Char, sep ∉ l → splitLast sep l = none := by
  intro l
  induction l with
  | nil => intro _; rfl
  | cons c rest ih =>
    intro h
    have hc : ¬(c = sep) := fun hx => h (by simp [hx])
    have hr : sep ∉ rest := fun hx => h (List.mem_cons_of_mem _ hx)
    simp [splitLast, ih hr, hc]

theorem splitLast_append_last (sep : Char) :
    ∀ (d f : List Char), sep ∉ f → splitLast sep (d ++ sep :: f) = some (d, f) := by
  intro d
  induction d with
  | nil =>
    intro f hf
    simp [splitLast, splitLast_eq_none_of_not_mem sep f hf]
  | cons c d0 ih =>
    intro f hf
    simp [splitLast, ih f hf]

theorem splitLast_isSome_of_mem (sep : Char) :
    ∀ l : List Char, sep ∈ l → (splitLast sep l).isSome := by
  intro l
  induction l with
  | nil => intro h; cases h
  | cons c rest ih =>
    intro h
    by_cases hr : sep ∈ rest
    · have := ih hr
      cases hx : splitLast sep rest with
      | none => rw [hx] at this; cases this
      | some x => simp [splitLast, hx]
    · have hc : c = sep := by
        rcases List.mem_cons.mp h with h1 | h2
        · exact h1.symm
        · exact absurd h2 hr
      simp [splitLast, splitLast_eq_none_of_not_mem sep rest hr, hc]

/-!  Claim theorems. -/

/-- C1 (code bug evidence): the feature graph can contain self-loop edges, and
`directly_depends_on(f, f)` then returns `Ok(true)` — contradicting both the
claim and the method's own doc comment ("returns false if `feature_a` is the
same as `feature_b`").  A self dev-dependency link yields a `Dependency`
self-loop on the base node, and a named feature listing its own name yields a
`FeatureDependency` self-loop; `depends_on(f, f)` is `Ok(true)` as claimed. -/
theorem c1_directly_depends_on_self_loop :
    builtThen selfDevGraph
      (fun st => directly_depends_on selfDevGraph st 100 none 100 none) =
        some (.ok true) ∧
    builtThen selfDevGraph
      (fun st => depends_on selfDevGraph st 100 none 100 none) = some (.ok true) ∧
    builtThen selfFeatGraph
      (fun st => directly_depends_on selfFeatGraph st 200 (some "foo".toList) 200
        (some "foo".toList)) = some (.ok true) ∧
    builtThen selfFeatGraph
      (fun st => depends_on selfFeatGraph st 200 (some "foo".toList) 200
        (some "foo".toList)) = some (.ok true) := by
  exact ⟨rfl, rfl, rfl, rfl⟩

/-- C4: `split_feature_dep` splits on the last `/` with at most one split:
any token of shape `d ++ "/" ++ f` with no `/` in `f` maps to `(some d, f)`,
a token without `/` maps to `(none, token)`, and in particular
"foo" ↦ (none, "foo"), "dep/foo" ↦ (some "dep", "foo"),
"a/b/c" ↦ (some "a/b", "c"), "" ↦ (none, ""). -/
theorem c4_split_feature_dep_right_split :
    (∀ s : FeatName, '/' ∉ s → split_feature_dep s = (none, s)) ∧
    (∀ d f : FeatName, '/' ∉ f → split_feature_dep (d ++ '/' :: f) = (some d, f)) ∧
    split_feature_dep "foo".toList = (none, "foo".toList) ∧
    split_feature_dep "dep/foo".toList = (some "dep".toList, "foo".toList) ∧
    split_feature_dep "a/b/c".toList = (some "a/b".toList, "c".toList) ∧
    split_feature_dep "".toList = (none, "".toList) := by
  refine ⟨?_, ?_, by decide, by decide, by decide, by decide⟩
  · intro s hs
    simp [split_feature_dep, splitLast_eq_none_of_not_mem '/' s hs]
  · intro d f hf
    simp [split_feature_dep, splitLast_append_last '/' d f hf]

/-- C4 witness: the general clauses evaluated at concrete inputs. -/
theorem c4_split_feature_dep_witness :
    split_feature_dep "xy".toList = (none, "xy".toList) ∧
    split_feature_dep ("ab".toList ++ '/' :: "c".toList) = (some "ab".toList, "c".toList) :=
  ⟨c4_split_feature_dep_right_split.1 "xy".toList (by decide),
   c4_split_feature_dep_right_split.2.1 "ab".toList "c".toList (by decide)⟩

/-- C10: on any token containing a `/`, `split_feature_dep` returns `some`
for the dependency-name component, even when a component is empty:
"dep/" ↦ (some "dep", ""), "/feat" ↦ (some "", "feat"), "/" ↦ (some "", ""). -/
theorem c10_split_feature_dep_empty_components :
    (∀ s : FeatName, '/' ∈ s → ((split_feature_dep s).1).isSome) ∧
    split_feature_dep "dep/".toList = (some "dep".toList, "".toList) ∧
    split_feature_dep "/feat".toList = (some "".toList, "feat".toList) ∧
    split_feature_dep "/".toList = (some "".toList, "".toList) := by
  refine ⟨?_, by decide, by decide, by decide⟩
  intro s hs
  have h := splitLast_isSome_of_mem '/' s hs
  cases hx : splitLast '/' s with
  | none => rw [hx] at h; cases h
  | some x => simp [split_feature_dep, hx]

/-- C10 witness: the general clause evaluated at a concrete input. -/
theorem c10_split_feature_dep_empty_components_witness :
    ((split_feature_dep "a/b".toList).1).isSome :=
  c10_split_feature_dep_empty_components.1 "a/b".toList (by decide)

theorem testBit_nil (i : Nat) : testBit [] i = false := rfl

theorem testBit_fbUnion : ∀ (a b : List Bool) (i : Nat),
    testBit (fbUnion a b) i = (testBit a i || testBit b i) := by
  intro a
  induction a with
  | nil => intro b i; simp [fbUnion, testBit_nil]
  | cons x a0 ih =>
    intro b i
    cases b with
    | nil => simp [fbUnion, testBit_nil]
    | cons y b0 =>
      cases i with
      | zero => simp [fbUnion, testBit]
      | succ j => simp [fbUnion, testBit, ih b0 j]

theorem testBit_map_false : ∀ (a : List Bool) (i : Nat),
    testBit (a.map (fun _ => false)) i = false := by
  intro a
  induction a with
  | nil => intro i; rfl
  | cons x a0 ih =>
    intro i
    cases i with
    | zero => rfl
    | succ j => exact ih j

theorem testBit_fbIntersect : ∀ (a b : List Bool) (i : Nat),
    testBit (fbIntersect a b) i = (testBit a i && testBit b i) := by
  intro a
  induction a with
  | nil => intro b i; simp [fbIntersect, testBit_nil]
  | cons x a0 ih =>
    intro b i
    cases b with
    | nil =>
      cases i with
      | zero => simp [fbIntersect, testBit, testBit_nil]
      | succ j =>
        have h := testBit_map_false a0 j
        simp [fbIntersect, testBit, testBit_nil] at h ⊢
        exact h
    | cons y b0 =>
      cases i with
      | zero => simp [fbIntersect, testBit]
      | succ j => simp [fbIntersect, testBit, ih b0 j]

theorem testBit_fbDifference : ∀ (a b : List Bool) (i : Nat),
    testBit (fbDifference a b) i = (testBit a i && !testBit b i) := by
  intro a
  induction a with
  | nil => intro b i; simp [fbDifference, testBit_nil]
  | cons x a0 ih =>
    intro b i
    cases b with
    | nil => simp [fbDifference, testBit_nil]
    | cons y b0 =>
      cases i with
      | zero => simp [fbDifference, testBit]
      | succ j => simp [fbDifference, testBit, ih b0 j]

theorem testBit_fbSymdiff : ∀ (a b : List Bool) (i : Nat),
    testBit (fbSymdiff a b) i = xor (testBit a i) (testBit b i) := by
  intro a
  induction a with
  | nil => intro b i; simp [fbSymdiff, testBit_nil]
  | cons x a0 ih =>
    intro b i
    cases b with
    | nil => simp [fbSymdiff, testBit_nil]
    | cons y b0 =>
      cases i with
      | zero => simp [fbSymdiff, testBit]
      | succ j => simp [fbSymdiff, testBit, ih b0 j]

/-- C8: `from_included` adopts the bitset and sets the length to its popcount;
a core whose cached length already is the popcount round-trips. -/
theorem c8_from_included_round_trip :
    ∀ c : ResolveCore,
      (ResolveCore.from_included c.included).included = c.included ∧
      (ResolveCore.from_included c.included).len = popcount c.included ∧
      (c.len = popcount c.included → ResolveCore.from_included c.included = c) := by
  intro c
  refine ⟨rfl, rfl, fun h => ?_⟩
  cases c with
  | mk included len =>
    simp only at h
    simp [ResolveCore.from_included, h]

/-- C8 witness: the round-trip clause at a concrete core. -/
theorem c8_from_included_round_trip_witness :
    ResolveCore.from_included (ResolveCore.mk [true, false, true] 2).included =
      ResolveCore.mk [true, false, true] 2 :=
  (c8_from_included_round_trip ⟨[true, false, true], 2⟩).2.2 (by decide)

/-- C6: the four `PackageSet` operations panic exactly when the operands were
built over different graph instances; on the same instance they return a set
whose bitset is the pointwise union / intersection / difference / symmetric
difference and whose length is its popcount. -/
theorem c6_package_set_ops :
    ∀ s other : PackageSet,
      (s.graph ≠ other.graph →
        s.union other = none ∧ s.intersection other = none ∧
        s.difference other = none ∧ s.symmetric_difference other = none) ∧
      (s.graph = other.graph →
        (∃ r, s.union other = some r ∧
          (∀ i, testBit r.core.included i =
            (testBit s.core.included i || testBit other.core.included i)) ∧
          r.core.len = popcount r.core.included) ∧
        (∃ r, s.intersection other = some r ∧
          (∀ i, testBit r.core.included i =
            (testBit s.core.included i && testBit other.core.included i)) ∧
          r.core.len = popcount r.core.included) ∧
        (∃ r, s.difference other = some r ∧
          (∀ i, testBit r.core.included i =
            (testBit s.core.included i && !testBit other.core.included i)) ∧
          r.core.len = popcount r.core.included) ∧
        (∃ r, s.symmetric_difference other = some r ∧
          (∀ i, testBit r.core.included i =
            xor (testBit s.core.included i) (testBit other.core.included i)) ∧
          r.core.len = popcount r.core.included)) := by
  intro s other
  constructor
  · intro hne
    refine ⟨?_, ?_, ?_, ?_⟩ <;>
      simp [PackageSet.union, PackageSet.intersection, PackageSet.difference,
        PackageSet.symmetric_difference, PackageSet.unionCall, PackageSet.intersectionCall,
        PackageSet.differenceCall, PackageSet.symmetricDifferenceCall, hne]
  · intro heq
    refine
      ⟨⟨⟨s.graph, s.core.union_with other.core⟩, ?_,
          fun i => testBit_fbUnion s.core.included other.core.included i, rfl⟩,
        ⟨⟨s.graph, s.core.intersect_with other.core⟩, ?_,
          fun i => testBit_fbIntersect s.core.included other.core.included i, rfl⟩,
        ⟨⟨s.graph, s.core.difference other.core⟩, ?_,
          fun i => testBit_fbDifference s.core.included other.core.included i, rfl⟩,
        ⟨⟨s.graph, s.core.symmetric_difference_with other.core⟩, ?_,
          fun i => testBit_fbSymdiff s.core.included other.core.included i, rfl⟩⟩
    · simp [PackageSet.union, PackageSet.unionCall, heq]
    · simp [PackageSet.intersection, PackageSet.intersectionCall, heq]
    · simp [PackageSet.difference, PackageSet.differenceCall, heq]
    · simp [PackageSet.symmetric_difference, PackageSet.symmetricDifferenceCall, heq]

/-- C6 witness: both branches at concrete sets. -/
theorem c6_package_set_ops_witness :
    (PackageSet.mk 1 ⟨[true], 1⟩).union (PackageSet.mk 2 ⟨[true], 1⟩) = none ∧
    ∃ r, (PackageSet.mk 1 ⟨[true, false], 1⟩).union (PackageSet.mk 1 ⟨[false, true], 1⟩) =
      some r ∧
      (∀ i, testBit r.core.included i =
        (testBit [true, false] i || testBit [false, true] i)) ∧
      r.core.len = popcount r.core.included :=
  ⟨((c6_package_set_ops ⟨1, ⟨[true], 1⟩⟩ ⟨2, ⟨[true], 1⟩⟩).1 (by decide)).1,
   ((c6_package_set_ops ⟨1, ⟨[true, false], 1⟩⟩ ⟨1, ⟨[false, true], 1⟩⟩).2 rfl).1⟩

/-- C9: each of the four `PackageSet` set operations, in its state-passing
embedding, leaves both operand sets exactly as they were and returns a freshly
constructed set referring to the same graph instance. -/
theorem c9_package_set_ops_frame :
    ∀ s other : PackageSet,
      ((PackageSet.unionCall s other).1 = s ∧
        (PackageSet.unionCall s other).2.1 = other ∧
        ∀ r, (PackageSet.unionCall s other).2.2 = some r → r.graph = s.graph) ∧
      ((PackageSet.intersectionCall s other).1 = s ∧
        (PackageSet.intersectionCall s other).2.1 = other ∧
        ∀ r, (PackageSet.intersectionCall s other).2.2 = some r → r.graph = s.graph) ∧
      ((PackageSet.differenceCall s other).1 = s ∧
        (PackageSet.differenceCall s other).2.1 = other ∧
        ∀ r, (PackageSet.differenceCall s other).2.2 = some r → r.graph = s.graph) ∧
      ((PackageSet.symmetricDifferenceCall s other).1 = s ∧
        (PackageSet.symmetricDifferenceCall s other).2.1 = other ∧
        ∀ r, (PackageSet.symmetricDifferenceCall s other).2.2 = some r → r.graph = s.graph) := by
  intro s other
  refine ⟨⟨rfl, rfl, ?_⟩, ⟨rfl, rfl, ?_⟩, ⟨rfl, rfl, ?_⟩, ⟨rfl, rfl, ?_⟩⟩ <;>
    · intro r hr
      by_cases h : s.graph = other.graph
      · simp [PackageSet.unionCall, PackageSet.intersectionCall, PackageSet.differenceCall,
          PackageSet.symmetricDifferenceCall, h] at hr
        rw [← hr]
        exact h.symm
      · simp [PackageSet.unionCall, PackageSet.intersectionCall, PackageSet.differenceCall,
          PackageSet.symmetricDifferenceCall, h] at hr

/-- C3: in Phase B, for a `dep/feat` token: when `dep` is a direct dependency
but `feat` is not one of its features, exactly one `MissingFeature` warning
with stage `AddNamedFeatureEdges` is appended and no edge is inserted (the
resulting build state differs from the input only by that one warning); when
`dep` is not a direct dependency the token is dropped with no warning and no
edge. -/
theorem c3_missing_feature_warning :
    ∀ (g : PackageGraph) (m : PackageMetadata) (nf : FeatName)
      (w : List FeatureGraphWarning) (tok dn feat : FeatName),
      split_feature_dep tok = (some dn, feat) →
      (∀ to_meta, g.dep_name_to_metadata m dn = some to_meta →
        to_meta.get_feature_idx feat = none →
        resolveFeatureToken g m nf w tok =
          (none, w ++ [FeatureGraphWarning.missingFeature
            (.addNamedFeatureEdges m.pid nf) to_meta.pid feat])) ∧
      (g.dep_name_to_metadata m dn = none →
        resolveFeatureToken g m nf w tok = (none, w)) ∧
      (∀ (st : BuildState) (fix : Nat),
        m.named_features = [(nf, [tok])] →
        st.lookup_node (FeatureNode.new m.package_ix 0) = some fix →
        (∀ to_meta, g.dep_name_to_metadata m dn = some to_meta →
          to_meta.get_feature_idx feat = none →
          st.add_named_feature_edges g m =
            .ok { st with warnings := st.warnings ++ [FeatureGraphWarning.missingFeature
              (.addNamedFeatureEdges m.pid nf) to_meta.pid feat] }) ∧
        (g.dep_name_to_metadata m dn = none →
          st.add_named_feature_edges g m = .ok st)) := by
  intro g m nf w tok dn feat hsplit
  have warnTok : ∀ (w0 : List FeatureGraphWarning) (to_meta : PackageMetadata),
      g.dep_name_to_metadata m dn = some to_meta →
      to_meta.get_feature_idx feat = none →
      resolveFeatureToken g m nf w0 tok =
        (none, w0 ++ [FeatureGraphWarning.missingFeature
          (.addNamedFeatureEdges m.pid nf) to_meta.pid feat]) := by
    intro w0 to_meta hdep hfeat
    simp [resolveFeatureToken, hsplit, hdep, hfeat]
  have silentTok : ∀ w0 : List FeatureGraphWarning,
      g.dep_name_to_metadata m dn = none →
      resolveFeatureToken g m nf w0 tok = (none, w0) := by
    intro w0 hdep
    simp [resolveFeatureToken, hsplit, hdep]
  refine ⟨fun to_meta hdep hfeat => warnTok w to_meta hdep hfeat,
    fun hdep => silentTok w hdep, ?_⟩
  intro st fix hnf hlook
  have hlook2 : ∀ ws, BuildState.lookup_node ⟨st.graph, st.base_ixs, st.map, ws⟩
      (FeatureNode.new m.package_ix 0) = some fix := fun _ => hlook
  constructor
  · intro to_meta hdep hfeat
    simp [BuildState.add_named_feature_edges, PackageMetadata.named_features_full, hnf,
      Except.bind, warnTok st.warnings to_meta hdep hfeat, BuildState.add_edges, hlook2]
  · intro hdep
    simp [BuildState.add_named_feature_edges, PackageMetadata.named_features_full, hnf,
      Except.bind, silentTok st.warnings hdep, BuildState.add_edges, hlook2]

/-- C3 witness: both branches at a concrete graph: package `m10` (id 10)
declares `myfeat = ["d/missing"]`; with a link to `m20` (id 20, no features)
under dep name `d` the warning branch fires, and with no links at all the
silent branch fires. -/
theorem c3_missing_feature_warning_witness :
    BuildState.add_named_feature_edges
      (PackageGraph.mk [⟨0, 10, [("myfeat".toList, ["d/missing".toList])], []⟩,
        ⟨1, 20, [], []⟩]
        [⟨⟨0, 10, [("myfeat".toList, ["d/missing".toList])], []⟩, ⟨1, 20, [], []⟩,
          "d".toList, allNeverReq, allNeverReq, allNeverReq⟩])
      (BuildState.empty.add_nodes ⟨0, 10, [("myfeat".toList, ["d/missing".toList])], []⟩)
      ⟨0, 10, [("myfeat".toList, ["d/missing".toList])], []⟩ =
      .ok { BuildState.empty.add_nodes ⟨0, 10, [("myfeat".toList, ["d/missing".toList])], []⟩
        with warnings := [FeatureGraphWarning.missingFeature
          (.addNamedFeatureEdges 10 "myfeat".toList) 20 "missing".toList] } ∧
    BuildState.add_named_feature_edges (PackageGraph.mk [] [])
      (BuildState.empty.add_nodes ⟨0, 10, [("myfeat".toList, ["d/missing".toList])], []⟩)
      ⟨0, 10, [("myfeat".toList, ["d/missing".toList])], []⟩ =
      .ok (BuildState.empty.add_nodes ⟨0, 10, [("myfeat".toList, ["d/missing".toList])], []⟩) :=
  ⟨((c3_missing_feature_warning
      (PackageGraph.mk [⟨0, 10, [("myfeat".toList, ["d/missing".toList])], []⟩,
        ⟨1, 20, [], []⟩]
        [⟨⟨0, 10, [("myfeat".toList, ["d/missing".toList])], []⟩, ⟨1, 20, [], []⟩,
          "d".toList, allNeverReq, allNeverReq, allNeverReq⟩])
      ⟨0, 10, [("myfeat".toList, ["d/missing".toList])], []⟩
      "myfeat".toList [] "d/missing".toList "d".toList "missing".toList
      (by decide)).2.2
      (BuildState.empty.add_nodes ⟨0, 10, [("myfeat".toList, ["d/missing".toList])], []⟩)
      1 rfl (by decide)).1 ⟨1, 20, [], []⟩ (by decide) (by decide),
   ((c3_missing_feature_warning (PackageGraph.mk [] [])
      ⟨0, 10, [("myfeat".toList, ["d/missing".toList])], []⟩
      "myfeat".toList [] "d/missing".toList "d".toList "missing".toList
      (by decide)).2.2
      (BuildState.empty.add_nodes ⟨0, 10, [("myfeat".toList, ["d/missing".toList])], []⟩)
      1 rfl (by decide)).2 (by decide)⟩

theorem findIdx?_isSome_of_mem {α : Type} (p : α → Bool) :
    ∀ (l : List α) (a : α), a ∈ l → p a = true → (l.findIdx? p).isSome := by
  intro l
  induction l with
  | nil => intro a ha; cases ha
  | cons x xs ih =>
    intro a ha hpa
    by_cases hx : p x = true
    · simp [List.findIdx?, hx]
    · rcases List.mem_cons.mp ha with h1 | h2
      · rw [← h1] at hx
        exact absurd hpa hx
      · have h3 := ih a h2 hpa
        cases hy : xs.findIdx? p with
        | none => rw [hy] at h3; cases h3
        | some i =>
          have hx0 : p x = false := by
            cases hz : p x
            · rfl
            · exact absurd hz hx
          simp [List.findIdx?, hx0, hy]

theorem get_feature_idx_isSome_of_optional_dep (m : PackageMetadata) (dn : FeatName)
    (h : dn ∈ m.optional_deps) : (m.get_feature_idx dn).isSome := by
  unfold PackageMetadata.get_feature_idx
  exact findIdx?_isSome_of_mem _ _ dn (List.mem_append_right _ h) (by simp)

/-- C7: in `add_dependency_edges`, once the required edges were emitted and
the optional request is non-empty, the builder panics exactly when the link's
`dep_name` is not a feature of the `from` package; when it is (feature index
`i`), the optional edges are emitted from `FeatureNode(from, i)`.  The Phase A
precondition holds structurally: every optional dependency name of a package
is a feature of it. -/
theorem c7_optional_dep_panic :
    ∀ (st st2 : BuildState) (link : PackageLink),
      BuildState.add_edges { st with warnings := (st.depReqs link).2.2 }
        (FeatureNode.base link.fromMeta.package_ix) ((st.depReqs link).1).finish = .ok st2 →
      ((st.depReqs link).2.1).is_empty = false →
      ((link.fromMeta.get_feature_idx link.dep_name = none →
        st.add_dependency_edges link =
          .error (.missingOptionalDep link.fromMeta.pid link.dep_name)) ∧
      (∀ i, link.fromMeta.get_feature_idx link.dep_name = some i →
        st.add_dependency_edges link =
          st2.add_edges (FeatureNode.new link.fromMeta.package_ix i)
            ((st.depReqs link).2.1).finish) ∧
      (∀ dn, dn ∈ link.fromMeta.optional_deps →
        (link.fromMeta.get_feature_idx dn).isSome)) := by
  intro st st2 link hreq hopt
  refine ⟨?_, ?_, fun dn hdn => get_feature_idx_isSome_of_optional_dep _ dn hdn⟩
  · intro hidx
    simp [BuildState.add_dependency_edges, hreq, hopt, hidx]
  · intro i hidx
    simp [BuildState.add_dependency_edges, hreq, hopt, hidx]

/-- C7 witness: the non-panicking branch and the Phase A precondition at the
concrete link `optLink` from `pkgC` (optional dep `od`) to `pkgD`. -/
theorem c7_optional_dep_panic_witness :
    stCD.add_dependency_edges optLink =
      BuildState.add_edges { stCD with warnings := (stCD.depReqs optLink).2.2 }
        (FeatureNode.new 0 0) ((stCD.depReqs optLink).2.1).finish ∧
    ("od".toList ∈ pkgC.optional_deps → (pkgC.get_feature_idx "od".toList).isSome) :=
  ⟨(c7_optional_dep_panic stCD { stCD with warnings := (stCD.depReqs optLink).2.2 }
      optLink rfl (by decide)).2.1 0 (by decide),
   fun h => (c7_optional_dep_panic stCD
      { stCD with warnings := (stCD.depReqs optLink).2.2 } optLink rfl
      (by decide)).2.2 "od".toList h⟩

theorem foldl_preserve {α β : Type} (P : α → Prop) (f : α → β → α)
    (hf : ∀ a b, P a → P (f a b)) : ∀ (l : List β) (a : α), P a → P (l.foldl f a) := by
  intro l
  induction l with
  | nil => intro a ha; exact ha
  | cons x xs ih =>
    intro a ha
    rw [List.foldl_cons]
    exact ih (f a x) (hf a x ha)

theorem is_never_extend (p q : PlatformStatus) (hq : q.is_never = false) :
    (p.extend q).is_never = false := by
  cases p <;> cases q <;>
    simp [PlatformStatus.extend, PlatformStatus.is_never] at hq ⊢

theorem dbs_extend_not_empty (bs : DependencyBuildState) (k : DependencyKind)
    (s : PlatformStatus) (hs : s.is_never = false) :
    (bs.extend k s).is_empty = false := by
  cases k with
  | normal =>
    simp [DependencyBuildState.extend, DependencyBuildState.is_empty,
      is_never_extend bs.normal s hs]
  | build =>
    simp [DependencyBuildState.extend, DependencyBuildState.is_empty,
      is_never_extend bs.build s hs]
  | development =>
    simp [DependencyBuildState.extend, DependencyBuildState.is_empty,
      is_never_extend bs.dev s hs]

theorem updateEntry_good (k : Option Nat) (kd : DependencyKind) (s : PlatformStatus)
    (hs : s.is_never = false) :
    ∀ l : List (Option Nat × DependencyBuildState),
      (∀ e ∈ l, e.2.is_empty = false) →
      ∀ e ∈ updateEntry k (fun b => b.extend kd s) l, e.2.is_empty = false := by
  intro l
  induction l with
  | nil =>
    intro _ e he
    simp only [updateEntry, List.mem_singleton] at he
    rw [he]
    exact dbs_extend_not_empty dbsDefault kd s hs
  | cons hd tl ih =>
    intro hgood e he
    simp only [updateEntry] at he
    by_cases hk : hd.1 = k
    · rw [if_pos hk] at he
      rcases List.mem_cons.mp he with h1 | h2
      · rw [h1]
        exact dbs_extend_not_empty hd.2 kd s hs
      · exact hgood e (List.mem_cons_of_mem _ h2)
    · rw [if_neg hk] at he
      rcases List.mem_cons.mp he with h1 | h2
      · rw [h1]
        exact hgood hd (List.mem_cons_self _ _)
      · exact ih (fun x hx => hgood x (List.mem_cons_of_mem _ hx)) e h2

theorem featureReq_extend_good (req : FeatureReq) (fi : Option Nat) (k : DependencyKind)
    (s : PlatformStatus)
    (hgood : ∀ e ∈ req.features, e.2.is_empty = false) :
    ∀ e ∈ (req.extend fi k s).features, e.2.is_empty = false := by
  by_cases hs : s.is_never = true
  · simpa [FeatureReq.extend, hs] using hgood
  · have hs0 : s.is_never = false := by
      cases hx : s.is_never
      · rfl
      · exact absurd hx hs
    intro e he
    simp only [FeatureReq.extend, hs0, Bool.false_eq_true, if_false] at he
    exact updateEntry_good fi k s hs0 req.features hgood e he

theorem add_features_good (kd : DependencyKind) (r : DepRequiredOrOptional)
    (req : FeatureReq) (w : List FeatureGraphWarning)
    (hgood : ∀ e ∈ req.features, e.2.is_empty = false) :
    ∀ e ∈ ((req.add_features kd r w).1).features, e.2.is_empty = false := by
  have h2 : ∀ e ∈ ((req.extend none kd r.build_if).extend
      (req.extend none kd r.build_if).to_default_idx kd r.default_features_if).features,
      e.2.is_empty = false :=
    featureReq_extend_good _ _ _ _ (featureReq_extend_good _ _ _ _ hgood)
  unfold FeatureReq.add_features
  refine foldl_preserve
    (fun acc : FeatureReq × List FeatureGraphWarning =>
      ∀ e ∈ acc.1.features, e.2.is_empty = false)
    _ ?_ r.feature_targets _ h2
  intro a b ha
  cases hidx : a.1.toPkg.get_feature_idx b.1 with
  | some idx =>
    simpa [hidx] using featureReq_extend_good a.1 (some idx) kd b.2 ha
  | none => simpa [hidx] using ha

theorem depReqs_good (st : BuildState) (link : PackageLink) :
    (∀ e ∈ (st.depReqs link).1.features, e.2.is_empty = false) ∧
    (∀ e ∈ (st.depReqs link).2.1.features, e.2.is_empty = false) := by
  have base : ∀ e ∈ (FeatureReq.new link).features, e.2.is_empty = false := by
    intro e he
    simp [FeatureReq.new] at he
  unfold BuildState.depReqs
  refine foldl_preserve
    (fun acc : FeatureReq × FeatureReq × List FeatureGraphWarning =>
      (∀ e ∈ acc.1.features, e.2.is_empty = false) ∧
      (∀ e ∈ acc.2.1.features, e.2.is_empty = false))
    _ ?_ _ _ ⟨base, base⟩
  intro a b ha
  exact ⟨add_features_good b.1 b.2.required a.1 a.2.2 ha.1,
    add_features_good b.1 b.2.optional a.2.1 _ ha.2⟩

/-- C2: a `never` predicate never creates or extends a `FeatureReq` entry;
`DependencyBuildState.is_empty()` holds exactly when all three per-kind
predicates are `never`; and every entry of both finished `FeatureReq`s of
Phase C (after folding all three kinds) has a non-empty build state. -/
theorem c2_feature_req_invariant :
    (∀ (req : FeatureReq) (fi : Option Nat) (k : DependencyKind) (s : PlatformStatus),
      s.is_never = true → req.extend fi k s = req) ∧
    (∀ bs : DependencyBuildState,
      bs.is_empty = true ↔
        (bs.normal.is_never = true ∧ bs.build.is_never = true ∧ bs.dev.is_never = true)) ∧
    (∀ (st : BuildState) (link : PackageLink),
      (∀ e ∈ (st.depReqs link).1.features, e.2.is_empty = false) ∧
      (∀ e ∈ (st.depReqs link).2.1.features, e.2.is_empty = false)) := by
  refine ⟨?_, ?_, depReqs_good⟩
  · intro req fi k s hs
    simp [FeatureReq.extend, hs]
  · intro bs
    simp [DependencyBuildState.is_empty, Bool.and_eq_true, and_assoc]

/-- C2 witness: the never-is-a-no-op clause and the non-empty-entry clause at
concrete inputs. -/
theorem c2_feature_req_invariant_witness :
    FeatureReq.extend (FeatureReq.new devSelfLink) none DependencyKind.normal .never =
      FeatureReq.new devSelfLink ∧
    DependencyBuildState.is_empty ⟨.never, .never, .always⟩ = false :=
  ⟨c2_feature_req_invariant.1 (FeatureReq.new devSelfLink) none .normal .never rfl,
   (c2_feature_req_invariant.2.2 BuildState.empty devSelfLink).1
     (none, ⟨.never, .never, .always⟩) (by decide)⟩

theorem rmStep_cons (l : List (Nat × Nat × Nat)) (p : Nat × Nat × Nat → Bool)
    (e : Nat × Nat × Nat) (v : List Nat) :
    rmStep (e :: l) p v =
      rmStep l p (if p e && v.contains e.1 && !v.contains e.2.1 then v ++ [e.2.1] else v) :=
  rfl

theorem rmStep_filter (p : Nat × Nat × Nat → Bool) :
    ∀ (l : List (Nat × Nat × Nat)) (v : List Nat),
      rmStep l p v = rmStep (l.filter p) (fun _ => true) v := by
  intro l
  induction l with
  | nil => intro v; rfl
  | cons e es ih =>
    intro v
    by_cases hp : p e = true
    · rw [List.filter_cons_of_pos hp, rmStep_cons, rmStep_cons, hp]
      simp only [Bool.true_and]
      exact ih _
    · have hp0 : p e = false := by
        cases hz : p e
        · rfl
        · exact absurd hz hp
      rw [List.filter_cons_of_neg (by simp [hp0]), rmStep_cons, hp0]
      simp only [Bool.false_and, Bool.false_eq_true, if_false]
      exact ih v

theorem rmIter_filter (p : Nat × Nat × Nat → Bool) (l : List (Nat × Nat × Nat)) :
    ∀ (n : Nat) (v : List Nat),
      rmIter l p n v = rmIter (l.filter p) (fun _ => true) n v := by
  intro n
  induction n with
  | zero => intro v; rfl
  | succ k ih =>
    intro v
    show rmIter l p k (rmStep l p v) = rmIter (l.filter p) (fun _ => true) k _
    rw [rmStep_filter p l v]
    exact ih _

theorem filter_map_swap (f : Nat → Nat → Nat → Bool) :
    ∀ l : List (Nat × Nat × Nat),
      ((l.map (fun e => ((e.2.1, e.1, e.2.2) : Nat × Nat × Nat))).filter
          (fun e => f e.2.1 e.1 e.2.2)) =
        (l.filter (fun e => f e.1 e.2.1 e.2.2)).map (fun e => (e.2.1, e.1, e.2.2)) := by
  intro l
  induction l with
  | nil => rfl
  | cons e es ih =>
    by_cases hp : f e.1 e.2.1 e.2.2 = true
    · simp [List.filter_cons, hp, ih]
    · have hp0 : f e.1 e.2.1 e.2.2 = false := by
        cases hz : f e.1 e.2.1 e.2.2
        · rfl
        · exact absurd hz hp
      simp [List.filter_cons, hp0, ih]

/-- C5: `with_edge_filter` consults the filter on the un-reversed
(source, target) pair of every edge in both query modes, and an edge is
traversable exactly when the filter accepts it: in `Forward` mode the result
equals unfiltered reachability over the graph keeping exactly the
filter-accepted edges in original orientation, and in `Reverse` mode it equals
unfiltered reachability over the reversal of that same filtered graph — only
the traversal direction flips. -/
theorem c5_with_edge_filter_unreversed :
    ∀ (g : EdgeListGraph) (f : Nat → Nat → Nat → Bool) (initials : List Nat),
      with_edge_filter g (.forward initials) f =
        reachable_map_filtered (origGated g f) (fun _ => true) initials ∧
      with_edge_filter g (.reverse initials) f =
        reachable_map_filtered (reversed (origGated g f)) (fun _ => true) initials := by
  intro g f initials
  constructor
  · show reachable_map_filtered g (fun e => f e.1 e.2.1 e.2.2) initials = _
    unfold reachable_map_filtered
    rw [show (origGated g f).n = g.n from rfl,
      show (origGated g f).edges = g.edges.filter (fun e => f e.1 e.2.1 e.2.2) from rfl,
      rmIter_filter]
  · show reachable_map_filtered (reversed g) (fun e => f e.2.1 e.1 e.2.2) initials = _
    unfold reachable_map_filtered
    rw [show (reversed (origGated g f)).n = g.n from rfl,
      show (reversed g).n = g.n from rfl,
      show (reversed g).edges = g.edges.map (fun e => (e.2.1, e.1, e.2.2)) from rfl,
      show (reversed (origGated g f)).edges =
        (g.edges.filter (fun e => f e.1 e.2.1 e.2.2)).map (fun e => (e.2.1, e.1, e.2.2))
        from rfl,
      rmIter_filter, filter_map_swap]

/-- C9 witness: the frame clauses at concrete sets. -/
theorem c9_package_set_ops_frame_witness :
    (PackageSet.unionCall ⟨1, ⟨[true], 1⟩⟩ ⟨1, ⟨[false], 0⟩⟩).1 = ⟨1, ⟨[true], 1⟩⟩ ∧
    ∀ r, (PackageSet.unionCall ⟨1, ⟨[true], 1⟩⟩ ⟨1, ⟨[false], 0⟩⟩).2.2 = some r →
      r.graph = 1 :=
  ⟨(c9_package_set_ops_frame ⟨1, ⟨[true], 1⟩⟩ ⟨1, ⟨[false], 0⟩⟩).1.1,
   (c9_package_set_ops_frame ⟨1, ⟨[true], 1⟩⟩ ⟨1, ⟨[false], 0⟩⟩).1.2.2⟩

end Guppy
